import Mathlib

/-!
Shallow embedding of the worker-pool / routing core of `src/load_balancer.py`.

The Python module keeps three parallel dicts keyed by worker id
(`self.workers`, `self.request_counts`, `self.last_request_time`); every code
path inserts into and deletes from the three together, so here one
insertion-ordered list of `WEntry` records models the triple (Python dicts
iterate in insertion order, which the first-fit scan in
`get_or_create_worker` depends on).  Counts are `Int` because
`release_worker` decrements without a floor.  The event-loop clock
(`time.time()`) is modelled by the `now` field; `tick` models the passage of
time with no request activity — the module starts no background task, so no
code runs on a pure time step.

`asyncio` interleaving: every block the Python code runs under
`self.lock` is an atomic step here.  The part of `get_or_create_worker`
that runs under `self.worker_creation_lock` is `getOrCreateLocked`, taking
as argument the pool state observed once that lock is held;
`getOrCreateTwoPhase s1 s2` exposes the state `s1` seen by the first
(unserialized) scan and the state `s2` seen under the creation lock, and
`getOrCreateWorker s = getOrCreateTwoPhase s s` is the interference-free
(sequential) run.
-/

namespace LoadBalancer

/-- Configuration constants from the top of `load_balancer.py`. -/
def MAX_WORKERS : Nat := 12

def REQUESTS_PER_WORKER : Int := 16

def DEFAULT_TIMEOUT : Nat := 30

def WORKER_PORT : Nat := 5000

def WORKER_IDLE_TIMEOUT : Nat := 30

/-- One worker record: the merge of `workers[id]` (id, url, port),
`request_counts[id]` and `last_request_time[id]`. -/
structure WEntry where
  wid : String
  url : String
  port : Nat
  count : Int
  lastReq : Nat
  deriving Repr, DecidableEq

/-- The `WorkerManager` state together with the `RequestTracker` counters
(`processed`, `total`) that gate `cleanup_workers`, and the model clock. -/
structure LBState where
  pool : List WEntry
  permId : String
  now : Nat
  processed : Nat
  total : Nat
  deriving Repr, DecidableEq

/-- Worker ids currently in the pool, in insertion order. -/
def wids (s : LBState) : List String := s.pool.map WEntry.wid

/-- The inflight count recorded for `id` (`request_counts.get(id)`). -/
def countOf (s : LBState) (id : String) : Option Int :=
  (s.pool.find? (fun e => e.wid = id)).map WEntry.count

/-- The last-activity timestamp recorded for `id`. -/
def lastOf (s : LBState) (id : String) : Option Nat :=
  (s.pool.find? (fun e => e.wid = id)).map WEntry.lastReq

/-- `request_counts[id] += 1; last_request_time[id] = time.time()`. -/
def bumpEntry (id : String) (t : Nat) (l : List WEntry) : List WEntry :=
  l.map (fun e => if e.wid = id then { e with count := e.count + 1, lastReq := t } else e)

/-- `request_counts[id] -= 1; last_request_time[id] = time.time()`
(no floor at zero: the Python decrement is unconditional). -/
def decEntry (id : String) (t : Nat) (l : List WEntry) : List WEntry :=
  l.map (fun e => if e.wid = id then { e with count := e.count - 1, lastReq := t } else e)

/-- The first-fit scan `for worker_id, count in self.request_counts.items():
if count < REQUESTS_PER_WORKER: ...` — returns the FIRST worker in insertion
order with spare capacity. -/
def findAvailable : List WEntry → Option WEntry
  | [] => none
  | e :: rest =>
      if e.count < REQUESTS_PER_WORKER then some e else findAvailable rest

/-- One step of the fallback scan of lines 133-139: `if count < min_count`
keeps the first strict minimum seen so far. -/
def llStep (best : Option WEntry) (e : WEntry) : Option WEntry :=
  match best with
  | none => some e
  | some b => if e.count < b.count then some e else some b

/-- The fallback scan of lines 133-139: the earliest least-loaded worker. -/
def leastLoaded (l : List WEntry) : Option WEntry :=
  l.foldl llStep none

/-- One locked spare-capacity acquire attempt (lines 108-114 and 119-124):
on success returns the chosen entry (pre-increment) and the updated state. -/
def tryAcquire (s : LBState) : Option (WEntry × LBState) :=
  match findAvailable s.pool with
  | some e => some (e, { s with pool := bumpEntry e.wid s.now s.pool })
  | none => none

/-- Outcome of one `await self.create_worker()` call as observed by
`get_or_create_worker`: either the new instance became healthy and was
registered (with its id and service url), or the whole attempt failed —
every exception inside `create_worker` is caught and logged, never
re-raised. -/
inductive CreateOutcome where
  | success (newId : String) (url : String)
  | failure
  deriving Repr, DecidableEq

/-- Effect of `create_worker` on the manager state: on success, lines
201-208 register the new worker with `request_counts[id] = 0`; on failure
the state is untouched. -/
def createWorkerEffect (s : LBState) (co : CreateOutcome) : LBState :=
  match co with
  | CreateOutcome.success newId u =>
      { s with pool := s.pool ++ [⟨newId, u, WORKER_PORT, 0, s.now⟩] }
  | CreateOutcome.failure => s

/-- Result of `get_or_create_worker`: the worker returned (the Python
function returns a worker dict on every reachable path; `none` here models
the pool-empty fallback, where the Python code would fail on
`request_counts[permanent_worker_id]`), the new state, and whether
`create_worker` was invoked. -/
structure AcqResult where
  worker : Option WEntry
  state : LBState
  provisionCalled : Bool
  deriving Repr, DecidableEq

/-- The final block of `get_or_create_worker` (lines 132-148): take the
least-loaded worker if any, incrementing its count; with an empty pool the
Python code would fail on `request_counts[permanent_worker_id]`, modelled
as `none`.  `provision` records whether `create_worker` was invoked before
this block. -/
def lockedFallback (s : LBState) (provision : Bool) : AcqResult :=
  match leastLoaded s.pool with
  | some b => ⟨some b, { s with pool := bumpEntry b.wid s.now s.pool }, provision⟩
  | none => ⟨none, s, provision⟩

/-- The part of `get_or_create_worker` run under `worker_creation_lock`
(lines 117-148): re-check for a spare worker, provision only if still none
and the pool is below `MAX_WORKERS`, then take the least-loaded worker. -/
def getOrCreateLocked (s : LBState) (co : CreateOutcome) : AcqResult :=
  match tryAcquire s with
  | some (e, s1) => ⟨some e, s1, false⟩
  | none =>
      if s.pool.length < MAX_WORKERS then
        lockedFallback (createWorkerEffect s co) true
      else
        lockedFallback s false

/-- The whole of `get_or_create_worker`, exposing the state `s1` seen by
the unserialized first attempt (lines 108-114) and the state `s2` seen
after `worker_creation_lock` is acquired. -/
def getOrCreateTwoPhase (s1 s2 : LBState) (co : CreateOutcome) : AcqResult :=
  match tryAcquire s1 with
  | some (e, s1Acq) => ⟨some e, s1Acq, false⟩
  | none => getOrCreateLocked s2 co

/-- `get_or_create_worker` with no interference between the two phases. -/
def getOrCreateWorker (s : LBState) (co : CreateOutcome) : AcqResult :=
  getOrCreateTwoPhase s s co

/-- `release_worker` (lines 228-233): decrement and refresh the timestamp
if the id is known, silently do nothing otherwise. -/
def releaseWorker (s : LBState) (id : String) : LBState :=
  if s.pool.any (fun e => e.wid = id) then
    { s with pool := decEntry id s.now s.pool }
  else s

/-- Outcome of the `requests.delete` call issued by `cleanup_workers` for
one worker: either an HTTP response with some status code, or a raised
exception. -/
inductive DelOutcome where
  | ok (status : Nat)
  | exn
  deriving Repr, DecidableEq

/-- The per-worker loop of `cleanup_workers` (lines 243-257): the permanent
worker is skipped; for every other worker the delete call is attempted, and
the record is removed from all three dicts unless that call raised (a
non-2xx status only logs a warning, the record is still removed); an
exception for one worker is caught and the loop continues. -/
def cleanupPass (permId : String) (del : String → DelOutcome) :
    List WEntry → List WEntry
  | [] => []
  | e :: rest =>
      if e.wid = permId then e :: cleanupPass permId del rest
      else
        match del e.wid with
        | DelOutcome.exn => e :: cleanupPass permId del rest
        | DelOutcome.ok _ => cleanupPass permId del rest

/-- `cleanup_workers` restricted to the pool state (the snapshot-deletion
half of the function never touches the three worker dicts). -/
def cleanupWorkers (s : LBState) (del : String → DelOutcome) : LBState :=
  { s with pool := cleanupPass s.permId del s.pool }

/-- The `if request_tracker.processed == request_tracker.total:
await worker_manager.cleanup_workers()` check that `hash_string` performs
after each terminal step (lines 306, 328, 339, 351, 364). -/
def maybeCleanup (del : String → DelOutcome) (s : LBState) : LBState :=
  if s.processed = s.total then cleanupWorkers s del else s

/-- Pure passage of time: `load_balancer.py` registers no background task
(no `asyncio.create_task`, no periodic job), so when no request is active
the only thing that changes is the clock. -/
def tick (s : LBState) : LBState := { s with now := s.now + 1 }

/-- `n` time units passing with no request activity. -/
def tickN : Nat → LBState → LBState
  | 0, s => s
  | n + 1, s => tick (tickN n s)

/-- Outcome of one `session.post(worker_url, ...)` dispatch inside
`hash_string`. -/
inductive DispatchOutcome where
  | ok
  | httpError (status : Nat)
  | netError
  deriving Repr, DecidableEq

/-- One iteration of the `while True` loop in `hash_string`: either the
deadline check at the top of the loop fires, or a worker is acquired (with
the given `create_worker` outcome) and the dispatch resolves as given. -/
inductive IterEvent where
  | timedOut
  | dispatch (co : CreateOutcome) (o : DispatchOutcome)
  deriving Repr, DecidableEq

/-- The HTTP outcome `hash_string` produces for its caller.  `incomplete`
means the supplied iteration trace ended with the loop still running. -/
inductive RouteResult where
  | success
  | error (status : Nat)
  | incomplete
  deriving Repr, DecidableEq

/-- The `while True` loop of `hash_string` (lines 302-357) together with
the catch-all `except Exception` handler of lines 359-368.  `wv` is the
Python local `worker`, which keeps its previous (already released) value
across iterations.  Key paths:
the deadline branch raises `HTTPException(503)`, which the catch-all
handler turns into a 500 after releasing `wv` once more;
a non-200 dispatch releases the worker, raises `HTTPException(status)`,
and the catch-all handler releases the same worker a second time and
responds 500;
a network error (`aiohttp.ClientError`) releases the worker and retries;
a 200 dispatch releases the worker, bumps `processed`, and returns. -/
def routeGo (del : String → DelOutcome) :
    LBState → Option WEntry → List IterEvent → RouteResult × LBState
  | s, _, [] => (RouteResult.incomplete, s)
  | s, wv, IterEvent.timedOut :: _ =>
      let s1 := maybeCleanup del s
      let s2 :=
        match wv with
        | some w => releaseWorker s1 w.wid
        | none => s1
      (RouteResult.error 500, maybeCleanup del s2)
  | s, _, IterEvent.dispatch co o :: rest =>
      match getOrCreateWorker s co with
      | ⟨none, s1, _⟩ => routeGo del s1 none rest
      | ⟨some w, s1, _⟩ =>
          match o with
          | DispatchOutcome.ok =>
              let s2 := releaseWorker s1 w.wid
              let s3 := { s2 with processed := s2.processed + 1 }
              (RouteResult.success, maybeCleanup del s3)
          | DispatchOutcome.httpError _ =>
              let s2 := maybeCleanup del (releaseWorker s1 w.wid)
              (RouteResult.error 500, maybeCleanup del (releaseWorker s2 w.wid))
          | DispatchOutcome.netError =>
              routeGo del (maybeCleanup del (releaseWorker s1 w.wid)) (some w) rest

/-- `hash_string` on one request: `request_tracker.add_to_total()` then the
routing loop, with `worker = None` initially. -/
def hashString (del : String → DelOutcome) (s : LBState)
    (events : List IterEvent) : RouteResult × LBState :=
  routeGo del { s with total := s.total + 1 } none events

/-- Outcome of one readiness attempt inside `create_worker` (lines
172-212): the health probe answered 200 together with the service url, or
it answered non-200 (no exception, so no sleep), or the attempt raised
(instance-info fetch failed, url missing, connection error, probe
timeout — all land in the `except` branch, which sleeps 2). -/
inductive ProbeOutcome where
  | ready (url : String)
  | non200
  | failed
  deriving Repr, DecidableEq

/-- The `for attempt in range(max_attempts)` polling loop: given the
outcome of each attempt and the remaining budget, returns the url on first
success, the list of delays slept after each unsuccessful attempt, and the
number of attempts made. -/
def pollLoop (probe : Nat → ProbeOutcome) : Nat → Nat → Option String × List Nat × Nat
  | _, 0 => (none, [], 0)
  | k, b + 1 =>
      match probe k with
      | ProbeOutcome.ready u => (some u, [], 1)
      | ProbeOutcome.non200 =>
          let r := pollLoop probe (k + 1) b
          (r.1, 0 :: r.2.1, r.2.2 + 1)
      | ProbeOutcome.failed =>
          let r := pollLoop probe (k + 1) b
          (r.1, 2 :: r.2.1, r.2.2 + 1)

/-- Observable result of one `create_worker` call. -/
structure CreateRun where
  state : LBState
  registered : Bool
  attemptsUsed : Nat
  delays : List Nat
  teardownIssued : Bool
  raisedToCaller : Bool
  deriving Repr, DecidableEq

/-- `create_worker` (lines 150-226).  `branch` is the result of the branch
call (`none` when it failed or returned no instance — that exception is
caught by the outer handler and only logged).  `teardownRaises` is whether
the best-effort `requests.delete` of the half-created instance raises; the
bare `except: pass` of lines 221-222 swallows it, so the result cannot
depend on it.  No path re-raises to the caller. -/
def createWorker (s : LBState) (branch : Option String)
    (probe : Nat → ProbeOutcome) (teardownRaises : Bool) : CreateRun :=
  match branch with
  | none => ⟨s, false, 0, [], false, false⟩
  | some newId =>
      match pollLoop probe 0 30 with
      | (some u, ds, n) =>
          ⟨{ s with pool := s.pool ++ [⟨newId, u, WORKER_PORT, 0, s.now⟩] },
            true, n, ds, false, false⟩
      | (none, ds, n) =>
          let _ := teardownRaises
          ⟨s, false, n, ds, true, false⟩

/-! Helper lemmas about the pool primitives. -/

theorem bumpEntry_length (id : String) (t : Nat) (l : List WEntry) :
    (bumpEntry id t l).length = l.length := by
  simp [bumpEntry]

theorem decEntry_length (id : String) (t : Nat) (l : List WEntry) :
    (decEntry id t l).length = l.length := by
  simp [decEntry]

theorem bumpEntry_wids (id : String) (t : Nat) (l : List WEntry) :
    (bumpEntry id t l).map WEntry.wid = l.map WEntry.wid := by
  induction l with
  | nil => rfl
  | cons e rest ih =>
      by_cases h : e.wid = id <;> simp [bumpEntry, h] at ih ⊢ <;> exact ih

theorem decEntry_wids (id : String) (t : Nat) (l : List WEntry) :
    (decEntry id t l).map WEntry.wid = l.map WEntry.wid := by
  induction l with
  | nil => rfl
  | cons e rest ih =>
      by_cases h : e.wid = id <;> simp [decEntry, h] at ih ⊢ <;> exact ih

theorem find?_decEntry_self (id : String) (t : Nat) (l : List WEntry) :
    (decEntry id t l).find? (fun e => e.wid = id)
      = (l.find? (fun e => e.wid = id)).map
          (fun e => { e with count := e.count - 1, lastReq := t }) := by
  induction l with
  | nil => rfl
  | cons e rest ih =>
      by_cases h : e.wid = id
      · simp [decEntry, List.find?, h]
      · simp only [decEntry, List.map] at ih ⊢
        simp [List.find?, h, ih, decEntry]

theorem find?_bumpEntry_self (id : String) (t : Nat) (l : List WEntry) :
    (bumpEntry id t l).find? (fun e => e.wid = id)
      = (l.find? (fun e => e.wid = id)).map
          (fun e => { e with count := e.count + 1, lastReq := t }) := by
  induction l with
  | nil => rfl
  | cons e rest ih =>
      by_cases h : e.wid = id
      · simp [bumpEntry, List.find?, h]
      · simp only [bumpEntry, List.map] at ih ⊢
        simp [List.find?, h, ih, bumpEntry]

theorem countOf_releaseWorker_self (s : LBState) (id : String) :
    countOf (releaseWorker s id) id = (countOf s id).map (fun c => c - 1) := by
  unfold releaseWorker
  by_cases h : s.pool.any (fun e => e.wid = id)
  · simp only [h, if_true, countOf, find?_decEntry_self, Option.map_map]
    rfl
  · have hnone : s.pool.find? (fun e => decide (e.wid = id)) = none := by
      rw [List.find?_eq_none]
      intro x hx hd
      apply h
      rw [List.any_eq_true]
      exact ⟨x, hx, hd⟩
    simp [h, countOf, hnone]

theorem findAvailable_eq_some (l : List WEntry) (e : WEntry)
    (h : findAvailable l = some e) :
    e.count < REQUESTS_PER_WORKER ∧
      ∃ l1 l2, l = l1 ++ e :: l2 ∧ ∀ x ∈ l1, ¬ x.count < REQUESTS_PER_WORKER := by
  induction l with
  | nil => cases h
  | cons a rest ih =>
      unfold findAvailable at h
      by_cases ha : a.count < REQUESTS_PER_WORKER
      · rw [if_pos ha] at h
        obtain rfl : a = e := Option.some_injective _ h
        exact ⟨ha, [], rest, rfl, by simp⟩
      · rw [if_neg ha] at h
        obtain ⟨hc, l1, l2, heq, hall⟩ := ih h
        refine ⟨hc, a :: l1, l2, ?_, ?_⟩
        · rw [heq]
          simp
        · intro x hx
          rcases List.mem_cons.mp hx with rfl | hx1
          · exact ha
          · exact hall x hx1

theorem findAvailable_mem (l : List WEntry) (e : WEntry)
    (h : findAvailable l = some e) : e ∈ l := by
  obtain ⟨_, l1, l2, heq, _⟩ := findAvailable_eq_some l e h
  rw [heq]
  exact List.mem_append_right l1 (List.mem_cons_self e l2)

theorem llFold_mem (l : List WEntry) :
    ∀ acc b, l.foldl llStep acc = some b → acc = some b ∨ b ∈ l := by
  induction l with
  | nil => intro acc b h; exact Or.inl h
  | cons e rest ih =>
      intro acc b h
      rcases ih (llStep acc e) b h with h1 | h1
      · cases acc with
        | none =>
            right
            have he : some e = some b := h1
            exact List.mem_cons.mpr (Or.inl (Option.some_injective _ he).symm)
        | some a =>
            by_cases hlt : e.count < a.count
            · right
              have he : some e = some b := by simpa [llStep, hlt] using h1
              exact List.mem_cons.mpr (Or.inl (Option.some_injective _ he).symm)
            · left
              simpa [llStep, hlt] using h1
      · right
        exact List.mem_cons.mpr (Or.inr h1)

theorem leastLoaded_mem (l : List WEntry) (b : WEntry)
    (h : leastLoaded l = some b) : b ∈ l := by
  rcases llFold_mem l none b h with h1 | h1
  · cases h1
  · exact h1

theorem llFold_isSome (l : List WEntry) :
    ∀ acc : Option WEntry, acc.isSome → (l.foldl llStep acc).isSome := by
  induction l with
  | nil => intro acc h; exact h
  | cons e rest ih =>
      intro acc h
      apply ih
      unfold llStep
      match acc with
      | some a => by_cases hlt : e.count < a.count <;> simp [hlt]

theorem leastLoaded_ne_none (l : List WEntry) (h : l ≠ []) :
    ∃ b, leastLoaded l = some b := by
  match l, h with
  | e :: rest, _ =>
      have : (List.foldl llStep (llStep none e) rest).isSome :=
        llFold_isSome rest (llStep none e) (by simp [llStep])
      obtain ⟨b, hb⟩ := Option.isSome_iff_exists.mp this
      exact ⟨b, hb⟩

theorem find?_of_nodup (l : List WEntry) (e : WEntry)
    (hnd : (l.map WEntry.wid).Nodup) (he : e ∈ l) :
    l.find? (fun x => x.wid = e.wid) = some e := by
  induction l with
  | nil => cases he
  | cons a rest ih =>
      rw [List.map_cons, List.nodup_cons] at hnd
      rcases List.mem_cons.mp he with rfl | hmem
      · simp [List.find?]
      · have ha : ¬ a.wid = e.wid := by
          intro hw
          exact hnd.1 (hw ▸ List.mem_map_of_mem WEntry.wid hmem)
        simp only [List.find?, decide_eq_false ha]
        exact ih hnd.2 hmem

theorem tickN_pool (n : Nat) (s : LBState) : (tickN n s).pool = s.pool := by
  induction n with
  | zero => rfl
  | succ n ih => simp [tickN, tick, ih]

theorem mem_cleanupPass (permId : String) (del : String → DelOutcome)
    (l : List WEntry) (e : WEntry) :
    e ∈ cleanupPass permId del l
      ↔ e ∈ l ∧ (e.wid = permId ∨ del e.wid = DelOutcome.exn) := by
  induction l with
  | nil => simp [cleanupPass]
  | cons a rest ih =>
      unfold cleanupPass
      by_cases ha : a.wid = permId
      · rw [if_pos ha]
        constructor
        · intro h
          rcases List.mem_cons.mp h with rfl | h1
          · exact ⟨List.mem_cons_self _ _, Or.inl ha⟩
          · obtain ⟨hm, hc⟩ := ih.mp h1
            exact ⟨List.mem_cons.mpr (Or.inr hm), hc⟩
        · rintro ⟨hm, hc⟩
          rcases List.mem_cons.mp hm with rfl | hm1
          · exact List.mem_cons_self _ _
          · exact List.mem_cons.mpr (Or.inr (ih.mpr ⟨hm1, hc⟩))
      · rw [if_neg ha]
        cases hdel : del a.wid with
        | exn =>
            constructor
            · intro h
              rcases List.mem_cons.mp h with rfl | h1
              · exact ⟨List.mem_cons_self _ _, Or.inr hdel⟩
              · obtain ⟨hm, hc⟩ := ih.mp h1
                exact ⟨List.mem_cons.mpr (Or.inr hm), hc⟩
            · rintro ⟨hm, hc⟩
              rcases List.mem_cons.mp hm with rfl | hm1
              · exact List.mem_cons_self _ _
              · exact List.mem_cons.mpr (Or.inr (ih.mpr ⟨hm1, hc⟩))
        | ok st =>
            rw [ih]
            constructor
            · rintro ⟨hm, hc⟩
              exact ⟨List.mem_cons.mpr (Or.inr hm), hc⟩
            · rintro ⟨hm, hc⟩
              rcases List.mem_cons.mp hm with rfl | hm1
              · rcases hc with hc | hc
                · exact absurd hc ha
                · rw [hdel] at hc; cases hc
              · exact ⟨hm1, hc⟩

theorem cleanupPass_length_le (permId : String) (del : String → DelOutcome)
    (l : List WEntry) : (cleanupPass permId del l).length ≤ l.length := by
  induction l with
  | nil => simp [cleanupPass]
  | cons a rest ih =>
      unfold cleanupPass
      by_cases ha : a.wid = permId
      · rw [if_pos ha]
        simpa using ih
      · rw [if_neg ha]
        cases del a.wid with
        | exn => simpa using ih
        | ok st => exact Nat.le_succ_of_le ih

theorem releaseWorker_processed (s : LBState) (id : String) :
    (releaseWorker s id).processed = s.processed := by
  unfold releaseWorker
  split <;> rfl

theorem releaseWorker_total (s : LBState) (id : String) :
    (releaseWorker s id).total = s.total := by
  unfold releaseWorker
  split <;> rfl

theorem lockedFallback_provision (s : LBState) (p : Bool) :
    (lockedFallback s p).provisionCalled = p := by
  unfold lockedFallback
  cases leastLoaded s.pool <;> rfl

theorem lockedFallback_pool_length (s : LBState) (p : Bool) :
    (lockedFallback s p).state.pool.length = s.pool.length := by
  unfold lockedFallback
  cases leastLoaded s.pool with
  | some b => simp [bumpEntry_length]
  | none => rfl

theorem lockedFallback_processed (s : LBState) (p : Bool) :
    (lockedFallback s p).state.processed = s.processed
      ∧ (lockedFallback s p).state.total = s.total := by
  unfold lockedFallback
  cases leastLoaded s.pool <;> exact ⟨rfl, rfl⟩

theorem createWorkerEffect_processed (s : LBState) (co : CreateOutcome) :
    (createWorkerEffect s co).processed = s.processed
      ∧ (createWorkerEffect s co).total = s.total := by
  cases co <;> exact ⟨rfl, rfl⟩

theorem getOrCreateWorker_processed (s : LBState) (co : CreateOutcome) :
    (getOrCreateWorker s co).state.processed = s.processed
      ∧ (getOrCreateWorker s co).state.total = s.total := by
  unfold getOrCreateWorker getOrCreateTwoPhase getOrCreateLocked tryAcquire
  cases findAvailable s.pool with
  | some e => exact ⟨rfl, rfl⟩
  | none =>
      by_cases hlen : s.pool.length < MAX_WORKERS
      · rw [if_pos hlen]
        rw [(lockedFallback_processed _ _).1, (lockedFallback_processed _ _).2]
        exact createWorkerEffect_processed s co
      · rw [if_neg hlen]
        exact lockedFallback_processed s false

theorem maybeCleanup_of_ne (del : String → DelOutcome) (s : LBState)
    (h : s.processed ≠ s.total) : maybeCleanup del s = s := by
  unfold maybeCleanup
  rw [if_neg h]

theorem pollLoop_le (probe : Nat → ProbeOutcome) :
    ∀ b k, (pollLoop probe k b).2.2 ≤ b := by
  intro b
  induction b with
  | zero => intro k; exact Nat.le_refl 0
  | succ b ih =>
      intro k
      cases hp : probe k with
      | ready u => simp [pollLoop, hp]
      | non200 =>
          simp only [pollLoop, hp]
          exact Nat.succ_le_succ (ih (k + 1))
      | failed =>
          simp only [pollLoop, hp]
          exact Nat.succ_le_succ (ih (k + 1))

theorem pollLoop_delays (probe : Nat → ProbeOutcome) :
    ∀ b k, (pollLoop probe k b).2.1
      = (List.range' k (pollLoop probe k b).2.1.length).map
          (fun j => if probe j = ProbeOutcome.failed then 2 else 0) := by
  intro b
  induction b with
  | zero => intro k; rfl
  | succ b ih =>
      intro k
      cases hp : probe k with
      | ready u => simp [pollLoop, hp]
      | non200 =>
          simp only [pollLoop, hp, List.length_cons, List.range'_succ, List.map_cons]
          rw [if_neg (show ¬ProbeOutcome.non200 = ProbeOutcome.failed from
            fun hc => by cases hc)]
          exact congrArg _ (ih (k + 1))
      | failed =>
          simp only [pollLoop, hp, List.length_cons, List.range'_succ, List.map_cons]
          rw [if_pos trivial]
          exact congrArg _ (ih (k + 1))

theorem pollLoop_none (probe : Nat → ProbeOutcome) :
    ∀ b k, (pollLoop probe k b).1 = none →
      (pollLoop probe k b).2.2 = b ∧ (pollLoop probe k b).2.1.length = b := by
  intro b
  induction b with
  | zero => intro k _; exact ⟨rfl, rfl⟩
  | succ b ih =>
      intro k h
      cases hp : probe k with
      | ready u => rw [pollLoop, hp] at h; cases h
      | non200 =>
          rw [pollLoop, hp] at h ⊢
          obtain ⟨h1, h2⟩ := ih (k + 1) h
          exact ⟨by simpa using h1, by simpa using h2⟩
      | failed =>
          rw [pollLoop, hp] at h ⊢
          obtain ⟨h1, h2⟩ := ih (k + 1) h
          exact ⟨by simpa using h1, by simpa using h2⟩

/-! Concrete inputs shared by the claim evaluations. -/

/-- A delete oracle whose every call returns HTTP 200. -/
def delOk : String → DelOutcome := fun _ => DelOutcome.ok 200

/-- A one-worker pool holding only the permanent worker, idle. -/
def c1State : LBState :=
  ⟨[⟨"perm", "u", 5000, 0, 0⟩], "perm", 0, 0, 0⟩

/-! Claim theorems. -/

/-- Claim C1 (code bug): the claim says every acquire is followed by exactly
one matching release on every code path, including the non-200-response
path, with no double-release, and an idle system has all counts at 0.  The
code violates this: when the dispatched worker answers non-200,
`hash_string` releases the worker at line 326 and then raises
`HTTPException`, which its own catch-all `except Exception` (line 359)
catches and, at line 362, releases the same worker a second time.  This
theorem evaluates the routing of a single request whose only dispatch gets
a 500 from the worker, starting from an idle one-worker pool: the worker is
acquired once, released twice, and the fully idle end state records
`inflight = -1`, not 0. -/
theorem claim_C1_eval :
    (hashString delOk c1State
        [IterEvent.dispatch CreateOutcome.failure (DispatchOutcome.httpError 500)]).1
      = RouteResult.error 500
    ∧ countOf (hashString delOk c1State
        [IterEvent.dispatch CreateOutcome.failure (DispatchOutcome.httpError 500)]).2 "perm"
      = some (-1) := by
  decide

/-- A one-worker pool with the worker exactly at capacity (count 16). -/
def c2StateB : LBState :=
  ⟨[⟨"q", "u", 5000, 16, 0⟩], "q", 0, 0, 0⟩

/-- Claim C2 counterexample: the claim says `0 <= inflight <= capacity`
after every operation — release never drives a count below zero and acquire
never pushes one above capacity.  Both directions fail on the code:
`release_worker` decrements unconditionally, so releasing the idle worker
of `c1State` yields -1; and when no worker has spare capacity and creation
fails, the fallback of lines 132-148 increments the least-loaded worker
regardless of capacity, pushing the count of the saturated worker of
`c2StateB` to 17 > 16. -/
theorem claim_C2_counterexample :
    countOf (releaseWorker c1State "perm") "perm" = some (-1)
    ∧ countOf (getOrCreateWorker c2StateB CreateOutcome.failure).state "q" = some 17
    ∧ REQUESTS_PER_WORKER = 16 := by
  decide

/-- Claim C2 (amended): releasing a worker whose count is at least 1
decrements it by exactly one and keeps it non-negative, and an acquire that
finds a worker with spare capacity (the normal path) returns that worker
with a post-increment count still at most `REQUESTS_PER_WORKER`; the
original bounds do not hold on the release-at-zero and the
fallback-acquire paths. -/
theorem claim_C2 (s : LBState) (id : String) (c : Int) (co : CreateOutcome) :
    (countOf s id = some c → 1 ≤ c →
      countOf (releaseWorker s id) id = some (c - 1) ∧ 0 ≤ c - 1)
    ∧ (∀ e, findAvailable s.pool = some e →
        (getOrCreateWorker s co).worker = some e
          ∧ e.count + 1 ≤ REQUESTS_PER_WORKER) := by
  constructor
  · intro hc hpos
    rw [countOf_releaseWorker_self, hc]
    exact ⟨rfl, by omega⟩
  · intro e he
    have hcnt := (findAvailable_eq_some s.pool e he).1
    constructor
    · simp [getOrCreateWorker, getOrCreateTwoPhase, tryAcquire, he]
    · exact Int.add_one_le_iff.mpr hcnt

/-- A one-worker pool with the worker at count 3, clock at 7. -/
def c2StateW : LBState :=
  ⟨[⟨"p", "u", 5000, 3, 0⟩], "p", 7, 0, 0⟩

/-- Witness for the amended C2 at a concrete input. -/
theorem claim_C2_witness :
    (countOf c2StateW "p" = some 3 ∧ (1 : Int) ≤ 3)
    ∧ (countOf (releaseWorker c2StateW "p") "p" = some (3 - 1) ∧ (0 : Int) ≤ 3 - 1)
    ∧ ((getOrCreateWorker c2StateW CreateOutcome.failure).worker
          = some ⟨"p", "u", 5000, 3, 0⟩
        ∧ (⟨"p", "u", 5000, 3, 0⟩ : WEntry).count + 1 ≤ REQUESTS_PER_WORKER) := by
  refine ⟨⟨by decide, by decide⟩, ?_, ?_⟩
  · exact (claim_C2 c2StateW "p" 3 CreateOutcome.failure).1 (by decide) (by decide)
  · exact (claim_C2 c2StateW "p" 3 CreateOutcome.failure).2
      ⟨"p", "u", 5000, 3, 0⟩ (by decide)

theorem getOrCreateWorker_length (s : LBState) (co : CreateOutcome) :
    (getOrCreateWorker s co).state.pool.length = s.pool.length
      ∨ ((getOrCreateWorker s co).state.pool.length = s.pool.length + 1
          ∧ s.pool.length < MAX_WORKERS) := by
  unfold getOrCreateWorker getOrCreateTwoPhase getOrCreateLocked tryAcquire
  cases hf : findAvailable s.pool with
  | some e => left; simp [bumpEntry_length]
  | none =>
      by_cases hlen : s.pool.length < MAX_WORKERS
      · rw [if_pos hlen, lockedFallback_pool_length]
        cases co with
        | success nid u =>
            right
            exact ⟨by simp [createWorkerEffect], hlen⟩
        | failure => left; rfl
      · rw [if_neg hlen, lockedFallback_pool_length]
        left
        rfl

/-- Claim C3 (confirmed): if the pool holds at most `MAX_WORKERS` workers,
it still does after any `get_or_create_worker` (creation is attempted only
below the cap, and only inside the creation lock, so the guarded insert of
`create_worker` cannot overshoot), and a call that did grow the pool
witnessed `len < MAX_WORKERS`; `release_worker`, `cleanup_workers` and the
passage of time never grow the pool. -/
theorem claim_C3 (s : LBState) (co : CreateOutcome) (id : String)
    (del : String → DelOutcome) (n : Nat)
    (h : s.pool.length ≤ MAX_WORKERS) :
    (getOrCreateWorker s co).state.pool.length ≤ MAX_WORKERS
    ∧ (s.pool.length < (getOrCreateWorker s co).state.pool.length →
        s.pool.length < MAX_WORKERS)
    ∧ (releaseWorker s id).pool.length ≤ MAX_WORKERS
    ∧ (cleanupWorkers s del).pool.length ≤ MAX_WORKERS
    ∧ (tickN n s).pool.length ≤ MAX_WORKERS := by
  refine ⟨?_, ?_, ?_, ?_, ?_⟩
  · rcases getOrCreateWorker_length s co with h1 | ⟨h1, h2⟩
    · omega
    · omega
  · intro hgrow
    rcases getOrCreateWorker_length s co with h1 | ⟨h1, h2⟩
    · omega
    · exact h2
  · unfold releaseWorker
    split
    · simpa [decEntry_length] using h
    · exact h
  · exact Nat.le_trans (cleanupPass_length_le s.permId del s.pool) h
  · rw [tickN_pool]
    exact h

/-- Witness for C3 at a concrete input: a full (12-worker) saturated pool
stays at 12 workers even when an acquire comes in. -/
def c3State : LBState :=
  ⟨(List.range 12).map (fun i => ⟨toString i, "u", 5000, 16, 0⟩), "0", 0, 0, 0⟩

/-- Witness for C3: evaluating the bound at the full pool. -/
theorem claim_C3_witness :
    c3State.pool.length ≤ MAX_WORKERS
    ∧ (getOrCreateWorker c3State CreateOutcome.failure).state.pool.length ≤ MAX_WORKERS := by
  refine ⟨by decide, ?_⟩
  exact (claim_C3 c3State CreateOutcome.failure "0" delOk 0 (by decide)).1

/-- A two-worker pool where the first worker ("a", count 5) is more loaded
than the second ("b", count 2), and both have spare capacity. -/
def c4State : LBState :=
  ⟨[⟨"a", "ua", 5000, 5, 0⟩, ⟨"b", "ub", 5000, 2, 0⟩], "a", 1, 0, 0⟩

/-- Claim C4 counterexample: the claim says a successful acquire returns
the candidate with the SMALLEST inflight count.  The scan of lines 110-114
is first-fit in dict insertion order: with worker "a" at count 5 and
worker "b" at count 2, both under capacity 16, the code returns "a", not
the less-loaded "b". -/
theorem claim_C4_counterexample :
    (getOrCreateWorker c4State CreateOutcome.failure).worker.map WEntry.wid = some "a"
    ∧ countOf c4State "a" = some 5
    ∧ countOf c4State "b" = some 2
    ∧ (2 : Int) < 5
    ∧ (5 : Int) < REQUESTS_PER_WORKER := by
  decide

/-- Claim C4 (amended): when some worker has spare capacity, acquire
returns the FIRST worker in insertion order with `inflight < capacity`
(first-fit — deterministic, but not least-loaded), increments exactly that
worker's count and sets its last-activity timestamp to the current time;
the least-loaded selection exists only on the everyone-at-capacity
fallback path. -/
theorem claim_C4 (s : LBState) (co : CreateOutcome) (e : WEntry)
    (hnd : (wids s).Nodup) (h : findAvailable s.pool = some e) :
    (getOrCreateWorker s co).worker = some e
    ∧ countOf (getOrCreateWorker s co).state e.wid = some (e.count + 1)
    ∧ lastOf (getOrCreateWorker s co).state e.wid = some s.now
    ∧ e.count < REQUESTS_PER_WORKER
    ∧ ∃ l1 l2, s.pool = l1 ++ e :: l2
        ∧ ∀ x ∈ l1, ¬ x.count < REQUESTS_PER_WORKER := by
  have hstate : (getOrCreateWorker s co).state
      = { s with pool := bumpEntry e.wid s.now s.pool } := by
    unfold getOrCreateWorker getOrCreateTwoPhase tryAcquire
    rw [h]
  have hfind : s.pool.find? (fun x => x.wid = e.wid) = some e :=
    find?_of_nodup s.pool e hnd (findAvailable_mem s.pool e h)
  obtain ⟨hcnt, hsplit⟩ := findAvailable_eq_some s.pool e h
  refine ⟨?_, ?_, ?_, hcnt, hsplit⟩
  · unfold getOrCreateWorker getOrCreateTwoPhase tryAcquire
    rw [h]
  · rw [hstate]
    unfold countOf
    rw [show ({ s with pool := bumpEntry e.wid s.now s.pool } : LBState).pool
        = bumpEntry e.wid s.now s.pool from rfl]
    rw [find?_bumpEntry_self, hfind]
    rfl
  · rw [hstate]
    unfold lastOf
    rw [show ({ s with pool := bumpEntry e.wid s.now s.pool } : LBState).pool
        = bumpEntry e.wid s.now s.pool from rfl]
    rw [find?_bumpEntry_self, hfind]
    rfl

/-- Witness for the amended C4 at `c4State`: the first-fit worker "a" is
returned and its count goes from 5 to 6. -/
theorem claim_C4_witness :
    (wids c4State).Nodup
    ∧ findAvailable c4State.pool = some ⟨"a", "ua", 5000, 5, 0⟩
    ∧ (getOrCreateWorker c4State CreateOutcome.failure).worker
        = some ⟨"a", "ua", 5000, 5, 0⟩
    ∧ countOf (getOrCreateWorker c4State CreateOutcome.failure).state "a" = some 6 := by
  have h := claim_C4 c4State CreateOutcome.failure ⟨"a", "ua", 5000, 5, 0⟩
    (by decide) (by decide)
  refine ⟨by decide, by decide, h.1, ?_⟩
  have h2 := h.2.1
  simpa using h2

/-- Claim C5 (confirmed): `create_worker` is invoked only when the first
(pre-lock) scan found no spare worker, the re-check under
`worker_creation_lock` also found none, and the pool is below
`MAX_WORKERS`; when the re-check does find a spare worker (because another
caller created one in the meantime), that worker is acquired and no
provisioning happens.  Serialization itself is structural: the whole of
`getOrCreateLocked` is the region guarded by `worker_creation_lock`, so at
most one caller runs it at a time. -/
theorem claim_C5 (s1 s2 : LBState) (co : CreateOutcome) :
    ((getOrCreateTwoPhase s1 s2 co).provisionCalled = true →
      findAvailable s1.pool = none ∧ findAvailable s2.pool = none
        ∧ s2.pool.length < MAX_WORKERS)
    ∧ (∀ e, findAvailable s1.pool = none → findAvailable s2.pool = some e →
        (getOrCreateTwoPhase s1 s2 co).worker = some e
          ∧ (getOrCreateTwoPhase s1 s2 co).provisionCalled = false) := by
  constructor
  · intro hp
    cases hf1 : findAvailable s1.pool with
    | some e =>
        exfalso
        unfold getOrCreateTwoPhase tryAcquire at hp
        rw [hf1] at hp
        cases hp
    | none =>
        unfold getOrCreateTwoPhase tryAcquire at hp
        rw [hf1] at hp
        unfold getOrCreateLocked tryAcquire at hp
        cases hf2 : findAvailable s2.pool with
        | some e =>
            exfalso
            rw [hf2] at hp
            cases hp
        | none =>
            rw [hf2] at hp
            by_cases hlen : s2.pool.length < MAX_WORKERS
            · exact ⟨rfl, rfl, hlen⟩
            · exfalso
              rw [if_neg hlen, lockedFallback_provision] at hp
              cases hp
  · intro e hf1 hf2
    unfold getOrCreateTwoPhase tryAcquire
    rw [hf1]
    unfold getOrCreateLocked tryAcquire
    rw [hf2]
    exact ⟨rfl, rfl⟩

/-- Witness for C5 at `c2StateB` (one saturated worker, pool below cap):
provisioning is reached, and indeed both scans failed with the pool below
the bound. -/
theorem claim_C5_witness :
    (getOrCreateTwoPhase c2StateB c2StateB CreateOutcome.failure).provisionCalled = true
    ∧ (findAvailable c2StateB.pool = none
        ∧ findAvailable c2StateB.pool = none
        ∧ c2StateB.pool.length < MAX_WORKERS) := by
  refine ⟨by decide, ?_⟩
  exact (claim_C5 c2StateB c2StateB CreateOutcome.failure).1 (by decide)

/-- A two-worker pool where "w2" comes first in insertion order, so the
first-fit acquire picks it; "w1" is the other, healthy worker. -/
def c6State : LBState :=
  ⟨[⟨"w2", "u2", 5000, 0, 0⟩, ⟨"w1", "u1", 5000, 0, 0⟩], "w1", 0, 0, 0⟩

/-- Claim C6 counterexample: the claim says a non-success response makes
the Router release the worker once, increment a retry counter, and retry
on a different worker, so the request can still succeed.  In the code a
non-200 dispatch is never retried: `hash_string` releases the worker,
raises `HTTPException`, and the catch-all handler releases the same worker
again and answers 500.  Evaluating one request against `c6State` whose
only dispatch gets a 500 from "w2": the caller gets a 500 (never reaching
the healthy "w1"), and "w2" ends at count -1 — decremented twice, not
exactly once. -/
theorem claim_C6_counterexample :
    (hashString delOk c6State
        [IterEvent.dispatch CreateOutcome.failure (DispatchOutcome.httpError 500)]).1
      = RouteResult.error 500
    ∧ countOf (hashString delOk c6State
        [IterEvent.dispatch CreateOutcome.failure (DispatchOutcome.httpError 500)]).2 "w2"
      = some (-1)
    ∧ countOf (hashString delOk c6State
        [IterEvent.dispatch CreateOutcome.failure (DispatchOutcome.httpError 500)]).2 "w1"
      = some 0 := by
  decide

/-- Claim C6 (amended): only network failures are retried — the Router
releases the worker and loops to acquire again, with no retry counter and
no bound other than the overall deadline; a non-200 response is terminal:
the Router releases the worker, raises an HTTP error that the catch-all
handler converts to a 500 response, and that handler releases the same
worker a second time, so the failing worker's count drops by two per
single acquire. -/
theorem claim_C6 (del : String → DelOutcome) (s sAcq : LBState)
    (co : CreateOutcome) (w : WEntry) (pc : Bool) (st : Nat)
    (rest : List IterEvent) (wv : Option WEntry)
    (hacq : getOrCreateWorker s co = ⟨some w, sAcq, pc⟩)
    (hnc : s.processed ≠ s.total) :
    routeGo del s wv (IterEvent.dispatch co DispatchOutcome.netError :: rest)
      = routeGo del (releaseWorker sAcq w.wid) (some w) rest
    ∧ (routeGo del s wv
        (IterEvent.dispatch co (DispatchOutcome.httpError st) :: rest)).1
      = RouteResult.error 500
    ∧ ∀ c, countOf sAcq w.wid = some c →
        countOf (routeGo del s wv
            (IterEvent.dispatch co (DispatchOutcome.httpError st) :: rest)).2 w.wid
          = some (c - 2) := by
  have hsp : sAcq.processed = s.processed := by
    have h1 := (getOrCreateWorker_processed s co).1
    rw [hacq] at h1
    exact h1
  have hst2 : sAcq.total = s.total := by
    have h1 := (getOrCreateWorker_processed s co).2
    rw [hacq] at h1
    exact h1
  have hmc1 : maybeCleanup del (releaseWorker sAcq w.wid) = releaseWorker sAcq w.wid := by
    apply maybeCleanup_of_ne
    rw [releaseWorker_processed, releaseWorker_total, hsp, hst2]
    exact hnc
  have hmc2 : maybeCleanup del (releaseWorker (releaseWorker sAcq w.wid) w.wid)
      = releaseWorker (releaseWorker sAcq w.wid) w.wid := by
    apply maybeCleanup_of_ne
    rw [releaseWorker_processed, releaseWorker_total,
      releaseWorker_processed, releaseWorker_total, hsp, hst2]
    exact hnc
  have hhttp : routeGo del s wv (IterEvent.dispatch co (DispatchOutcome.httpError st) :: rest)
      = (RouteResult.error 500, releaseWorker (releaseWorker sAcq w.wid) w.wid) := by
    simp only [routeGo, hacq]
    rw [hmc1, hmc2]
  refine ⟨?_, ?_, ?_⟩
  · simp only [routeGo, hacq]
    rw [hmc1]
  · rw [hhttp]
  · intro c hc
    rw [hhttp]
    show countOf (releaseWorker (releaseWorker sAcq w.wid) w.wid) w.wid = some (c - 2)
    rw [countOf_releaseWorker_self, countOf_releaseWorker_self, hc]
    show some (c - 1 - 1) = some (c - 2)
    exact congrArg some (by omega)

/-- A one-worker pool with an admitted but unprocessed request
(`processed = 0 ≠ 1 = total`), used to instantiate C6. -/
def c6WState : LBState :=
  ⟨[⟨"p", "u", 5000, 0, 0⟩], "p", 0, 0, 1⟩

/-- The state after acquiring "p" from `c6WState`. -/
def c6WAcq : LBState :=
  ⟨[⟨"p", "u", 5000, 1, 0⟩], "p", 0, 0, 1⟩

/-- Witness for the amended C6 at a concrete input. -/
theorem claim_C6_witness :
    (getOrCreateWorker c6WState CreateOutcome.failure
        = ⟨some ⟨"p", "u", 5000, 0, 0⟩, c6WAcq, false⟩
      ∧ c6WState.processed ≠ c6WState.total
      ∧ countOf c6WAcq "p" = some 1)
    ∧ (routeGo delOk c6WState none
        [IterEvent.dispatch CreateOutcome.failure (DispatchOutcome.httpError 502)]).1
      = RouteResult.error 500
    ∧ countOf (routeGo delOk c6WState none
        [IterEvent.dispatch CreateOutcome.failure (DispatchOutcome.httpError 502)]).2 "p"
      = some (1 - 2) := by
  have h := claim_C6 delOk c6WState c6WAcq CreateOutcome.failure
    ⟨"p", "u", 5000, 0, 0⟩ false 502 [] none (by decide) (by decide)
  exact ⟨⟨by decide, by decide, by decide⟩, h.2.1, h.2.2 1 (by decide)⟩

/-- A probe trace whose first attempt gets a non-200 from the health
endpoint and whose second succeeds. -/
def c7Probe : Nat → ProbeOutcome :=
  fun k => if k = 0 then ProbeOutcome.non200 else ProbeOutcome.ready "u"

/-- Claim C7 counterexample: the claim says `create_worker` waits a fixed
2-time-unit delay between readiness attempts.  The `asyncio.sleep(2)` of
line 212 sits in the `except` branch only, so an attempt that reaches the
health endpoint and receives a non-200 retries immediately: with
`c7Probe`, two attempts are made and the delay between them is 0, not 2. -/
theorem claim_C7_counterexample :
    (createWorker c1State (some "i1") c7Probe false).attemptsUsed = 2
    ∧ (createWorker c1State (some "i1") c7Probe false).delays = [0]
    ∧ (createWorker c1State (some "i1") c7Probe false).registered = true := by
  decide

/-- Claim C7 (amended): `create_worker` polls readiness with a budget of
30 attempts, sleeping 2 time units after each attempt that fails by
raising but not after one that got a non-200 probe answer; if no attempt
succeeds, the budget is fully used, a best-effort teardown of the
half-created instance is issued whose own failure cannot change the
outcome, the pool is untouched, and no exception reaches the caller. -/
theorem claim_C7 (s : LBState) (newId : String) (probe : Nat → ProbeOutcome)
    (td : Bool) :
    (createWorker s (some newId) probe td).attemptsUsed ≤ 30
    ∧ ((createWorker s (some newId) probe td).registered = false →
        (createWorker s (some newId) probe td).teardownIssued = true
          ∧ (createWorker s (some newId) probe td).attemptsUsed = 30
          ∧ (createWorker s (some newId) probe td).state = s)
    ∧ (createWorker s (some newId) probe td).raisedToCaller = false
    ∧ createWorker s (some newId) probe true = createWorker s (some newId) probe false
    ∧ (createWorker s (some newId) probe td).delays
        = (List.range' 0 (createWorker s (some newId) probe td).delays.length).map
            (fun j => if probe j = ProbeOutcome.failed then 2 else 0) := by
  have hle := pollLoop_le probe 30 0
  have hdel := pollLoop_delays probe 30 0
  have hnone := pollLoop_none probe 30 0
  unfold createWorker
  rcases hpq : pollLoop probe 0 30 with ⟨r, ds, n⟩
  rw [hpq] at hle hdel hnone
  simp only at hle hdel hnone
  cases r with
  | some u =>
      refine ⟨hle, ?_, rfl, rfl, hdel⟩
      intro hreg
      cases hreg
  | none =>
      obtain ⟨hn30, _⟩ := hnone rfl
      exact ⟨hle, fun _ => ⟨rfl, hn30, rfl⟩, rfl, rfl, hdel⟩

/-- A probe trace that raises on every attempt. -/
def c7FailProbe : Nat → ProbeOutcome := fun _ => ProbeOutcome.failed

/-- Witness for the amended C7: with every probe raising, all 30 attempts
are used, teardown is issued, nothing reaches the caller. -/
theorem claim_C7_witness :
    (createWorker c1State (some "i2") c7FailProbe false).registered = false
    ∧ (createWorker c1State (some "i2") c7FailProbe false).attemptsUsed ≤ 30
    ∧ ((createWorker c1State (some "i2") c7FailProbe false).teardownIssued = true
        ∧ (createWorker c1State (some "i2") c7FailProbe false).attemptsUsed = 30
        ∧ (createWorker c1State (some "i2") c7FailProbe false).state = c1State)
    ∧ (createWorker c1State (some "i2") c7FailProbe false).raisedToCaller = false := by
  have h := claim_C7 c1State "i2" c7FailProbe false
  exact ⟨by decide, h.1, h.2.1 (by decide), h.2.2.1⟩

/-- Claim C8 (confirmed): when demand has drained (`processed == total`,
checked by `hash_string` after each terminal step) `cleanup_workers` runs,
and in its single pass over the pool an entry survives exactly when it is
the permanent worker or its delete call raised: the permanent worker is
never evicted, every other worker's teardown is attempted regardless of
failures elsewhere in the pass, and a record is retained only when its
deletion actually failed. -/
theorem claim_C8 (s : LBState) (del : String → DelOutcome) (e : WEntry)
    (he : e ∈ s.pool) :
    (e ∈ (cleanupWorkers s del).pool
      ↔ e.wid = s.permId ∨ del e.wid = DelOutcome.exn)
    ∧ (s.processed = s.total → maybeCleanup del s = cleanupWorkers s del) := by
  constructor
  · rw [show (cleanupWorkers s del).pool = cleanupPass s.permId del s.pool from rfl]
    rw [mem_cleanupPass]
    constructor
    · rintro ⟨_, hc⟩
      exact hc
    · intro hc
      exact ⟨he, hc⟩
  · intro h
    unfold maybeCleanup
    rw [if_pos h]

/-- A delete oracle that raises for "bad" and answers 200 otherwise. -/
def c8Del : String → DelOutcome :=
  fun id => if id = "bad" then DelOutcome.exn else DelOutcome.ok 200

/-- A drained three-worker pool: the permanent worker, one worker whose
delete will succeed, one whose delete will raise. -/
def c8State : LBState :=
  ⟨[⟨"perm", "u", 5000, 0, 0⟩, ⟨"gone", "u", 5000, 0, 0⟩, ⟨"bad", "u", 5000, 0, 0⟩],
    "perm", 0, 3, 3⟩

/-- Witness for C8: the worker whose delete raises is retained by the
pass (and, directly by evaluation, the succeeding one is removed while the
permanent worker survives). -/
theorem claim_C8_witness :
    ((⟨"bad", "u", 5000, 0, 0⟩ : WEntry) ∈ c8State.pool)
    ∧ ((⟨"bad", "u", 5000, 0, 0⟩ : WEntry) ∈ (cleanupWorkers c8State c8Del).pool
        ↔ ("bad" : String) = c8State.permId ∨ c8Del "bad" = DelOutcome.exn)
    ∧ (cleanupWorkers c8State c8Del).pool
        = [⟨"perm", "u", 5000, 0, 0⟩, ⟨"bad", "u", 5000, 0, 0⟩] := by
  refine ⟨by decide, ?_, by decide⟩
  exact (claim_C8 c8State c8Del ⟨"bad", "u", 5000, 0, 0⟩ (by decide)).1

/-- A pool with the permanent worker busy on one outstanding request and a
second worker "w1" idle since time 0, at clock 100 — far past
`WORKER_IDLE_TIMEOUT`. -/
def c9State : LBState :=
  ⟨[⟨"perm", "u", 5000, 1, 50⟩, ⟨"w1", "u1", 5000, 0, 0⟩], "perm", 100, 0, 1⟩

/-- Claim C9 counterexample: the claim says a worker with `inflight == 0`
idle longer than `WORKER_IDLE_TIMEOUT` is eventually torn down by a
periodically running background reaper.  The module defines
`WORKER_IDLE_TIMEOUT` but never reads it, stores `last_request_time` only
"for future cleanup", and registers no background task, so nothing runs as
time passes: worker "w1" of `c9State` is idle and stale beyond the
threshold, yet no amount of elapsed time ever removes it from the pool. -/
theorem claim_C9_counterexample :
    countOf c9State "w1" = some 0
    ∧ lastOf c9State "w1" = some 0
    ∧ WORKER_IDLE_TIMEOUT < c9State.now - 0
    ∧ ¬ ∃ n, "w1" ∉ wids (tickN n c9State) := by
  refine ⟨by decide, by decide, by decide, ?_⟩
  rintro ⟨n, hn⟩
  apply hn
  have hw : wids (tickN n c9State) = wids c9State := by
    unfold wids
    rw [tickN_pool]
  rw [hw]
  decide

theorem lockedFallback_wids (s : LBState) (p : Bool) :
    (lockedFallback s p).state.pool.map WEntry.wid = s.pool.map WEntry.wid := by
  unfold lockedFallback
  cases leastLoaded s.pool with
  | some b => exact bumpEntry_wids b.wid s.now s.pool
  | none => rfl

theorem getOrCreateWorker_wids (s : LBState) (co : CreateOutcome) (w : String)
    (hw : w ∈ s.pool.map WEntry.wid) :
    w ∈ (getOrCreateWorker s co).state.pool.map WEntry.wid := by
  unfold getOrCreateWorker getOrCreateTwoPhase tryAcquire
  cases hf : findAvailable s.pool with
  | some e =>
      show w ∈ (bumpEntry e.wid s.now s.pool).map WEntry.wid
      rw [bumpEntry_wids]
      exact hw
  | none =>
      unfold getOrCreateLocked tryAcquire
      rw [hf]
      by_cases hlen : s.pool.length < MAX_WORKERS
      · rw [if_pos hlen, lockedFallback_wids]
        cases co with
        | success nid u =>
            show w ∈ (s.pool ++ [(⟨nid, u, WORKER_PORT, 0, s.now⟩ : WEntry)]).map WEntry.wid
            rw [List.map_append]
            exact List.mem_append_left _ hw
        | failure => exact hw
      · rw [if_neg hlen, lockedFallback_wids]
        exact hw

/-- Claim C9 (amended): no idle eviction exists — the passage of time
alone never changes the pool (there is no background reaper),
`release_worker` never removes a worker however stale it is, and
`get_or_create_worker` only ever keeps or adds workers; non-permanent
workers leave the pool only through the drain-to-zero `cleanup_workers`
pass. -/
theorem claim_C9 (s : LBState) (n : Nat) (id : String) (co : CreateOutcome) :
    (tickN n s).pool = s.pool
    ∧ wids (releaseWorker s id) = wids s
    ∧ ∀ w, w ∈ wids s → w ∈ wids (getOrCreateWorker s co).state := by
  refine ⟨tickN_pool n s, ?_, ?_⟩
  · unfold releaseWorker
    split
    · exact decEntry_wids id s.now s.pool
    · rfl
  · intro w hw
    exact getOrCreateWorker_wids s co w hw

/-- Witness for the amended C9 at `c9State`. -/
theorem claim_C9_witness :
    ("w1" ∈ wids c9State)
    ∧ (tickN 75 c9State).pool = c9State.pool
    ∧ "w1" ∈ wids (getOrCreateWorker c9State CreateOutcome.failure).state := by
  have h := claim_C9 c9State 75 "w1" CreateOutcome.failure
  exact ⟨by decide, h.1, h.2.2 "w1" (by decide)⟩

theorem countOf_bump_state (s : LBState) (e : WEntry) (t : Nat)
    (hfind : s.pool.find? (fun x => x.wid = e.wid) = some e) :
    countOf { s with pool := bumpEntry e.wid t s.pool } e.wid = some (e.count + 1) := by
  unfold countOf
  rw [show ({ s with pool := bumpEntry e.wid t s.pool } : LBState).pool
      = bumpEntry e.wid t s.pool from rfl]
  rw [find?_bumpEntry_self, hfind]
  rfl

theorem lockedFallback_spec (s : LBState) (p : Bool)
    (hne : s.pool ≠ []) (hnd : (s.pool.map WEntry.wid).Nodup) :
    (lockedFallback s p).worker ≠ none
    ∧ ∀ w, (lockedFallback s p).worker = some w →
        countOf (lockedFallback s p).state w.wid = some (w.count + 1) := by
  obtain ⟨b, hb⟩ := leastLoaded_ne_none s.pool hne
  unfold lockedFallback
  rw [hb]
  refine ⟨by simp, ?_⟩
  intro w hw
  have hbw : b = w := Option.some_injective _ hw
  subst hbw
  have hfind := find?_of_nodup s.pool b hnd (leastLoaded_mem s.pool b hb)
  exact countOf_bump_state s b s.now hfind

/-- Claim C10 (confirmed): with a nonempty pool (guaranteed at runtime
because the constructor raises unless the permanent worker is registered,
and nothing ever removes it), `get_or_create_worker` always returns a
worker — even when every worker is saturated and creation fails it falls
back to the least-loaded worker — and the returned worker's count is
exactly one above its count at selection time, so the `if not worker:
continue` branch of the routing loop is unreachable. -/
theorem claim_C10 (s : LBState) (co : CreateOutcome)
    (hne : s.pool ≠ [])
    (hnd : (wids s).Nodup)
    (hfresh : ∀ nid u, co = CreateOutcome.success nid u → nid ∉ wids s) :
    (getOrCreateWorker s co).worker ≠ none
    ∧ ∀ w, (getOrCreateWorker s co).worker = some w →
        countOf (getOrCreateWorker s co).state w.wid = some (w.count + 1) := by
  unfold getOrCreateWorker getOrCreateTwoPhase tryAcquire
  cases hf : findAvailable s.pool with
  | some e =>
      refine ⟨by simp, ?_⟩
      intro w hw
      have hew : e = w := Option.some_injective _ hw
      subst hew
      have hfind := find?_of_nodup s.pool e hnd (findAvailable_mem s.pool e hf)
      exact countOf_bump_state s e s.now hfind
  | none =>
      unfold getOrCreateLocked tryAcquire
      rw [hf]
      by_cases hlen : s.pool.length < MAX_WORKERS
      · rw [if_pos hlen]
        cases co with
        | success nid u =>
            have hfr := hfresh nid u rfl
            have hne2 : (createWorkerEffect s (CreateOutcome.success nid u)).pool ≠ [] := by
              show s.pool ++ [(⟨nid, u, WORKER_PORT, 0, s.now⟩ : WEntry)] ≠ []
              simp
            have hnd2 :
                ((createWorkerEffect s (CreateOutcome.success nid u)).pool.map
                  WEntry.wid).Nodup := by
              show ((s.pool ++ [(⟨nid, u, WORKER_PORT, 0, s.now⟩ : WEntry)]).map
                WEntry.wid).Nodup
              rw [List.map_append]
              rw [List.nodup_append]
              refine ⟨hnd, List.nodup_singleton _, ?_⟩
              intro a ha hb
              have hb2 : a = nid := by simpa using hb
              subst hb2
              exact hfr ha
            exact lockedFallback_spec
              (createWorkerEffect s (CreateOutcome.success nid u)) true hne2 hnd2
        | failure => exact lockedFallback_spec s true hne hnd
      · rw [if_neg hlen]
        exact lockedFallback_spec s false hne hnd

/-- Witness for C10 at `c9State` (nonempty, duplicate-free pool): a worker
is returned. -/
theorem claim_C10_witness :
    (c9State.pool ≠ [] ∧ (wids c9State).Nodup)
    ∧ (getOrCreateWorker c9State CreateOutcome.failure).worker ≠ none := by
  refine ⟨⟨by decide, by decide⟩, ?_⟩
  exact (claim_C10 c9State CreateOutcome.failure (by decide) (by decide)
    (fun nid u h => nomatch h)).1

end LoadBalancer

